import Mathlib

/-!
Shallow embedding of the statistical aggregation layer of the pyracing
repository: `performance_list.py` (the `PerformanceList` class) and
`runner.py` (the `Runner` derived-statistics engine).

Dates are modelled as absolute day numbers (`Int`), so that Python
`date` subtraction becomes integer subtraction in days and the
`timedelta(days=90)` comparison becomes `< 90`.  A helper
`daysFromCivil` converts a calendar date (year, month, day) to such a
day number using the standard civil-calendar algorithm, so concrete
examples can use real calendar dates.

Numeric statistics (Python `float` results of true division over exact
integer/decimal inputs) are modelled as exact rationals (`ℚ`).  Python
`None` becomes `Option.none`.  A Python expression that can raise
(`performance['track_condition'].upper()` on a `None` condition)
becomes an `Except`-valued function.
-/

namespace Pyracing

/-- Conversion from a civil calendar date to an absolute day number
(days since 0000-03-01 of the proleptic Gregorian calendar), valid for
years ≥ 1.  Differences of the results are exact day counts, matching
Python `datetime.date` subtraction. -/
def daysFromCivil (y m d : Nat) : Nat :=
  let y2 := if m ≤ 2 then y - 1 else y
  let era := y2 / 400
  let yoe := y2 % 400
  let mp := (m + 9) % 12
  let doy := (153 * mp + 2) / 5 + d - 1
  let doe := yoe * 365 + yoe / 4 - yoe / 100 + doy
  era * 146097 + doe

/-- Model of one performance record (`Performance` entity): the fields
the aggregation layer reads.  `date` is an absolute day number;
nullable fields are `Option`. -/
structure Performance where
  date : Int
  result : Option Int
  starting_price : Option ℚ
  runner_prize_money : Option ℚ
  momentum : Option ℚ
  track : String
  track_condition : Option String
  distance : Int
  deriving DecidableEq, Repr

/-- Stable descending insertion of a performance into a list already
sorted by date descending: the new element goes before the first
element whose date is not greater, so among equal dates the element
inserted later (which came earlier in the original input, as the sort
folds from the right) ends up first.  This models the stability of
Python `list.sort(key=..., reverse=True)`. -/
def insertDesc (p : Performance) : List Performance → List Performance
  | [] => [p]
  | q :: t => if q.date > p.date then q :: insertDesc p t else p :: q :: t

/-- Stable sort by date, descending: the model of the sort performed by
`PerformanceList.__init__` (`self.sort(key=lambda p: p['date'],
reverse=True)`). -/
def sortByDateDesc : List Performance → List Performance
  | [] => []
  | p :: t => insertDesc p (sortByDateDesc t)

/-- Model of `PerformanceList(...)` construction: wrap the given
records, sorted by date descending (stable). -/
def mkPerformanceList (l : List Performance) : List Performance :=
  sortByDateDesc l

/-- Model of `PerformanceList.starts`: the number of records. -/
def starts (l : List Performance) : Nat := l.length

/-- Model of `PerformanceList.count_results(result)`: the number of
records whose `result` equals the given rank (a `None` result matches
no rank, as in Python `None == r` is `False`). -/
def count_results (l : List Performance) (result : Int) : Nat :=
  (l.filter (fun p => p.result = some result)).length

/-- Model of `PerformanceList.wins`. -/
def wins (l : List Performance) : Nat := count_results l 1

/-- Model of `PerformanceList.seconds`. -/
def seconds (l : List Performance) : Nat := count_results l 2

/-- Model of `PerformanceList.thirds`. -/
def thirds (l : List Performance) : Nat := count_results l 3

/-- Model of `PerformanceList.fourths`. -/
def fourths (l : List Performance) : Nat := count_results l 4

/-- Model of `PerformanceList.calculate_percentage(value)` with the
default `divide_by_zero=None`: `value / starts` when `starts > 0`,
`None` when `starts == 0`, propagating a `None` value. -/
def calculate_percentage (l : List Performance) (value : Option ℚ) : Option ℚ :=
  match value with
  | none => none
  | some v => if starts l > 0 then some (v / (starts l : ℚ)) else none

/-- Model of `PerformanceList.win_pct`. -/
def win_pct (l : List Performance) : Option ℚ :=
  calculate_percentage l (some (wins l : ℚ))

/-- Model of the list comprehension in `PerformanceList.roi`: the
starting prices of winning performances whose starting price is not
`None`. -/
def winning_starting_prices (l : List Performance) : List ℚ :=
  l.filterMap (fun p => if p.result = some 1 then p.starting_price else none)

/-- Model of `PerformanceList.roi`: when at least one winning record
has a non-null starting price, the sum of those prices minus `starts`,
divided by `starts`; otherwise `None` (the `len(...) > 0` guard means
the method falls through and returns `None`). -/
def roi (l : List Performance) : Option ℚ :=
  let ws := winning_starting_prices l
  if ws.length > 0 then calculate_percentage l (some (ws.sum - (starts l : ℚ))) else none

/-- Model of `PerformanceList.get_momentums()`: the non-null momentums
of all records. -/
def get_momentums (l : List Performance) : List ℚ :=
  l.filterMap (fun p => p.momentum)

/-- Model of `PerformanceList.average_momentum`: when at least one
record has a non-null momentum, the sum of the non-null momentums
passed to `calculate_average` (an alias of `calculate_percentage`, so
the divisor is `starts`, the total record count); otherwise `None`. -/
def average_momentum (l : List Performance) : Option ℚ :=
  let ms := get_momentums l
  if ms.length > 0 then calculate_percentage l (some ms.sum) else none

/-- Model of the list comprehension in
`PerformanceList.average_starting_price`: the non-null starting prices
of all records. -/
def nonnull_starting_prices (l : List Performance) : List ℚ :=
  l.filterMap (fun p => p.starting_price)

/-- Model of `PerformanceList.average_starting_price`: when at least
one record has a non-null starting price, the sum of the non-null
starting prices passed to `calculate_average` (divisor `starts`);
otherwise `None`. -/
def average_starting_price (l : List Performance) : Option ℚ :=
  let ps := nonnull_starting_prices l
  if ps.length > 0 then calculate_percentage l (some ps.sum) else none

/-- Model of `PerformanceList.maximum_momentum`: `max` of the non-null
momentums when at least one exists, otherwise `None`. -/
def maximum_momentum (l : List Performance) : Option ℚ :=
  (get_momentums l).max?

/-- Model of `PerformanceList.minimum_momentum`: `min` of the non-null
momentums when at least one exists, otherwise `None`. -/
def minimum_momentum (l : List Performance) : Option ℚ :=
  (get_momentums l).min?

/-- Model of `PerformanceList.total_prize_money`: the sum of the
non-null `runner_prize_money` values when at least one exists,
otherwise `None`. -/
def total_prize_money (l : List Performance) : Option ℚ :=
  let ms := l.filterMap (fun p => p.runner_prize_money)
  if ms.length > 0 then some ms.sum else none

/-- Model of `Runner.REST_PERIOD = timedelta(days=90)`, in days. -/
def REST_PERIOD : Int := 90

/-- Backward walk shared by `Runner.up` and `Runner.since_rest`: given
the date of the next-later run and the career (sorted most recent
first), count how many leading career runs are each strictly less than
`REST_PERIOD` days before the next-later date, stopping at the first
gap of `REST_PERIOD` or more. -/
def upWalk (next : Int) : List Performance → Nat
  | [] => 0
  | p :: rest => if next - p.date < REST_PERIOD then 1 + upWalk p.date rest else 0

/-- Model of `Runner.up`: `1` plus the backward-walk count starting
from the race meet date over the career list. -/
def up (raceDate : Int) (career : List Performance) : Nat :=
  1 + upWalk raceDate career

/-- Backward walk of `Runner.since_rest`: collect the leading career
runs while the gap to the next-later date stays under `REST_PERIOD`,
stopping at the first gap of `REST_PERIOD` or more. -/
def sinceRestWalk (next : Int) : List Performance → List Performance
  | [] => []
  | p :: rest =>
    if next - p.date < REST_PERIOD then p :: sinceRestWalk p.date rest else []

/-- Model of `Runner.since_rest`: the collected walk, wrapped in a
`PerformanceList` (hence sorted by date descending). -/
def since_rest (raceDate : Int) (career : List Performance) : List Performance :=
  mkPerformanceList (sinceRestWalk raceDate career)

/-- Forward scan of the `Runner.on_up` loop body: `prev` is the
previously visited (older) run date (`previous_date`), `count` the
running `up` counter; the counter is incremented when `prev` is `None`
or the gap from `prev` is under `REST_PERIOD`, and reset to `1`
otherwise; a performance is collected when the counter equals the
target `up` value. -/
def onUpScan (target : Nat) (prev : Option Int) (count : Nat) :
    List Performance → List Performance
  | [] => []
  | p :: rest =>
    let c : Nat :=
      match prev with
      | none => count + 1
      | some d => if p.date - d < REST_PERIOD then count + 1 else 1
    (if c = target then [p] else []) ++ onUpScan target (some p.date) c rest

/-- Model of `Runner.on_up`: the loop `for index in
range(len(self.career) - 1, 0, -1)` visits the career entries from the
oldest (index `len - 1`) down to index `1`, i.e. the reverse of the
career list with its last element (the most recent performance, index
`0`) dropped; the collected performances are wrapped in a
`PerformanceList`. -/
def on_up (raceDate : Int) (career : List Performance) : List Performance :=
  mkPerformanceList (onUpScan (up raceDate career) none 0 career.reverse.dropLast)

/-- Specification variant of the `on_up` walk, following the spec's
words for comparison with the source's `on_up`: every career
performance is considered — the scan runs over the full career from
oldest to newest, not stopping before the most recent entry. -/
def onUpSpecWalk (raceDate : Int) (career : List Performance) : List Performance :=
  mkPerformanceList (onUpScan (up raceDate career) none 0 career.reverse)

/-- Model of `Runner.jockey_career`: when the jockey is resolvable, the
jockey's performances strictly before the meet date, as a
`PerformanceList`; when the jockey is `None`, an empty
`PerformanceList`. -/
def jockey_career (jockeyPerformances : Option (List Performance)) (meetDate : Int) :
    List Performance :=
  match jockeyPerformances with
  | some perfs => mkPerformanceList (perfs.filter (fun p => p.date < meetDate))
  | none => mkPerformanceList []

/-- Model of the filter of `Runner.at_distance` / `Runner.jockey_at_distance`:
the records within 100 distance units of the race distance, as a
`PerformanceList`. -/
def at_distance_filter (raceDistance : Int) (l : List Performance) : List Performance :=
  mkPerformanceList
    (l.filter (fun p => raceDistance - 100 ≤ p.distance ∧ p.distance ≤ raceDistance + 100))

/-- Model of the filter of `Runner.on_track` / `Runner.jockey_on_track`:
the records on the race's track, as a `PerformanceList`. -/
def on_track_filter (raceTrack : String) (l : List Performance) : List Performance :=
  mkPerformanceList (l.filter (fun p => p.track = raceTrack))

/-- Model of the filter of `Runner.at_distance_on_track` /
`Runner.jockey_at_distance_on_track`: the records of the at-distance
collection that are members of the on-track collection. -/
def at_distance_on_track_filter (atDist onTrack : List Performance) : List Performance :=
  mkPerformanceList (atDist.filter (fun p => p ∈ onTrack))

/-- Model of the predicate evaluation in
`Runner.get_performances_by_track_condition`:
`performance['track_condition'].upper().startswith(tc.upper())` raises
an `AttributeError` when the condition is `None`, modelled as
`Except.error`. -/
def condFilter (tc : String) : List Performance → Except String (List Performance)
  | [] => .ok []
  | p :: rest =>
    match p.track_condition with
    | none => .error "AttributeError"
    | some c =>
      match condFilter tc rest with
      | .error e => .error e
      | .ok l => .ok (if c.toUpper.startsWith tc.toUpper then p :: l else l)

/-- Model of `Runner.get_performances_by_track_condition`: the career
records whose condition starts (case-insensitively) with the given
category, as a `PerformanceList`; an error when any record's condition
is `None`. -/
def get_performances_by_track_condition (career : List Performance) (tc : String) :
    Except String (List Performance) :=
  (condFilter tc career).map mkPerformanceList

/-- Model of `Runner.get_jockey_performances_by_track_condition`: the
same filter applied to the jockey career. -/
def get_jockey_performances_by_track_condition (jc : List Performance) (tc : String) :
    Except String (List Performance) :=
  (condFilter tc jc).map mkPerformanceList

/-- Predicate: the list is sorted by date in descending order (each
record's date is at least every later record's date). -/
def DateSortedDesc (l : List Performance) : Prop :=
  l.Pairwise (fun a b => b.date ≤ a.date)

instance (l : List Performance) : Decidable (DateSortedDesc l) :=
  inferInstanceAs (Decidable (l.Pairwise _))

/-- Specification variant for `up`, following the spec's words for
comparison with the source's walk: the gaps in days between
consecutive run dates, walking backward from the race date through the
career (most recent first). -/
def dateGaps (next : Int) : List Performance → List Int
  | [] => []
  | p :: t => (next - p.date) :: dateGaps p.date t

/-- Specification variant of `up`, following the spec's words: `1`
plus the number of leading backward gaps that are each strictly less
than the 90-day rest threshold. -/
def upSpec (raceDate : Int) (career : List Performance) : Nat :=
  1 + ((dateGaps raceDate career).takeWhile (fun g => g < REST_PERIOD)).length

/-- Example performance with a given date and result and no other
data. -/
def datedPerf (d : Int) (res : Option Int) : Performance :=
  ⟨d, res, none, none, none, "", none, 0⟩

/-- Example input for the construction-order claim: performances dated
2020-01-01, 2021-01-01 and 2020-06-01, tagged with distinct results so
the expected output order is observable. -/
def exC4 : List Performance :=
  [datedPerf (daysFromCivil 2020 1 1) (some 1),
   datedPerf (daysFromCivil 2021 1 1) (some 2),
   datedPerf (daysFromCivil 2020 6 1) (some 3)]

/-- Example career for the `up` claim: runs on 2024-03-01, 2024-01-20
and 2024-01-01, most recent first. -/
def exC5career : List Performance :=
  [datedPerf (daysFromCivil 2024 3 1) none,
   datedPerf (daysFromCivil 2024 1 20) none,
   datedPerf (daysFromCivil 2024 1 1) none]

/-- Example race date for the `up` claim: 2024-03-15. -/
def exC5race : Int := daysFromCivil 2024 3 15

/-- Example collection for the `roi` claim: three starts, none of them
winning, each with a known starting price. -/
def exC2 : List Performance :=
  [⟨2, some 2, some 3, none, none, "", none, 0⟩,
   ⟨1, some 3, some 4, none, none, "", none, 0⟩,
   ⟨0, some 4, some 5, none, none, "", none, 0⟩]

/-- Example collection with one winning record carrying a starting
price, used to witness the amended `roi` behaviour. -/
def exC2w : List Performance :=
  [⟨2, some 1, some 3, none, none, "", none, 0⟩,
   ⟨1, some 2, some 4, none, none, "", none, 0⟩]

/-- Example collection for the averages claim: two records, exactly
one of which has a momentum and a starting price. -/
def exC6 : List Performance :=
  [⟨1, none, some 10, none, some 10, "", none, 0⟩,
   ⟨0, none, none, none, none, "", none, 0⟩]

/-- Example collection for the `win_pct` witness: two starts, one
win. -/
def exC3 : List Performance :=
  [⟨1, some 1, none, none, none, "", none, 0⟩,
   ⟨0, some 5, none, none, none, "", none, 0⟩]

/-- Example career for the `on_up` skipped-most-recent input: a single
performance 100 days before the race date 100. -/
def exC1 : List Performance := [datedPerf 0 none]

/-- Example career for the `since_rest` witness: four performances,
most recent first, with a rest gap of more than 90 days in the
middle (dates 300, 280, 100, 80 against race date 310). -/
def exC10 : List Performance :=
  [datedPerf 300 none, datedPerf 280 none, datedPerf 100 none, datedPerf 80 none]

/-- Example career for the track-condition claim: one performance with
a null `track_condition`. -/
def exC7 : List Performance := [⟨0, none, none, none, none, "T", none, 1200⟩]

/-- Example career for the track-condition witness: two performances
with non-null conditions, one of which matches the `good` category by
case-insensitive prefix. -/
def exC7ok : List Performance :=
  [⟨1, none, none, none, none, "T", some "Good (3)", 1200⟩,
   ⟨0, none, none, none, none, "T", some "Heavy (8)", 1200⟩]

/-! Lemmas about the stable descending sort. -/

theorem insertDesc_perm (p : Performance) (l : List Performance) :
    List.Perm (insertDesc p l) (p :: l) := by
  induction l with
  | nil => rfl
  | cons q t ih =>
    unfold insertDesc
    split
    · exact ((ih.cons q).trans (List.Perm.swap p q t))
    · rfl

theorem mem_insertDesc {x p : Performance} {l : List Performance} :
    x ∈ insertDesc p l ↔ x = p ∨ x ∈ l := by
  rw [(insertDesc_perm p l).mem_iff, List.mem_cons]

theorem pairwise_insertDesc (p : Performance) {l : List Performance}
    (h : l.Pairwise (fun a b => b.date ≤ a.date)) :
    (insertDesc p l).Pairwise (fun a b => b.date ≤ a.date) := by
  induction l with
  | nil => simp [insertDesc]
  | cons q t ih =>
    rcases List.pairwise_cons.mp h with ⟨hq, ht⟩
    unfold insertDesc
    split
    · rename_i hgt
      refine List.pairwise_cons.mpr ⟨?_, ih ht⟩
      intro x hx
      rcases mem_insertDesc.mp hx with rfl | hx
      · exact le_of_lt hgt
      · exact hq x hx
    · rename_i hle
      refine List.pairwise_cons.mpr ⟨?_, h⟩
      intro x hx
      rcases List.mem_cons.mp hx with rfl | hx
      · exact le_of_not_lt hle
      · exact le_trans (hq x hx) (le_of_not_lt hle)

theorem sortByDateDesc_perm (l : List Performance) :
    List.Perm (sortByDateDesc l) l := by
  induction l with
  | nil => rfl
  | cons p t ih => exact (insertDesc_perm p (sortByDateDesc t)).trans (ih.cons p)

theorem sortByDateDesc_pairwise (l : List Performance) :
    (sortByDateDesc l).Pairwise (fun a b => b.date ≤ a.date) := by
  induction l with
  | nil => simp [sortByDateDesc]
  | cons p t ih => exact pairwise_insertDesc p ih

theorem filter_insertDesc (p : Performance) (l : List Performance) (d : Int) :
    (insertDesc p l).filter (fun q => q.date = d) =
      if p.date = d then p :: l.filter (fun q => q.date = d)
      else l.filter (fun q => q.date = d) := by
  induction l with
  | nil => by_cases hp : p.date = d <;> simp [insertDesc, hp]
  | cons q t ih =>
    unfold insertDesc
    split
    · rename_i hgt
      by_cases hp : p.date = d
      · have hq : ¬(q.date = d) := by
          intro hqd
          rw [hp] at hgt
          exact absurd hqd (ne_of_gt hgt)
        simp [List.filter_cons, hp, hq, ih]
      · simp [List.filter_cons, hp, ih]
    · by_cases hp : p.date = d <;> simp [List.filter_cons, hp]

theorem filter_sortByDateDesc (l : List Performance) (d : Int) :
    (sortByDateDesc l).filter (fun q => q.date = d) = l.filter (fun q => q.date = d) := by
  induction l with
  | nil => rfl
  | cons p t ih =>
    show (insertDesc p (sortByDateDesc t)).filter (fun q => q.date = d) = _
    rw [filter_insertDesc]
    by_cases hp : p.date = d <;> simp [List.filter_cons, hp, ih]

theorem insertDesc_of_le {p : Performance} {t : List Performance}
    (h : ∀ q ∈ t, q.date ≤ p.date) : insertDesc p t = p :: t := by
  cases t with
  | nil => rfl
  | cons q t' =>
    unfold insertDesc
    have : ¬(q.date > p.date) := not_lt_of_le (h q (List.mem_cons_self q t'))
    simp [this]

theorem sortByDateDesc_of_pairwise {l : List Performance}
    (h : l.Pairwise (fun a b => b.date ≤ a.date)) : sortByDateDesc l = l := by
  induction l with
  | nil => rfl
  | cons p t ih =>
    rcases List.pairwise_cons.mp h with ⟨hp, ht⟩
    show insertDesc p (sortByDateDesc t) = p :: t
    rw [ih ht]
    exact insertDesc_of_le hp

/-! Lemmas about the backward rest-threshold walks. -/

theorem sinceRestWalk_eq_take (next : Int) (l : List Performance) :
    sinceRestWalk next l = l.take (upWalk next l) := by
  induction l generalizing next with
  | nil => rfl
  | cons p t ih =>
    unfold sinceRestWalk upWalk
    split
    · rw [Nat.add_comm]
      simp [List.take_succ_cons, ih]
    · rfl

theorem upWalk_le_length (next : Int) (l : List Performance) :
    upWalk next l ≤ l.length := by
  induction l generalizing next with
  | nil => simp [upWalk]
  | cons p t ih =>
    unfold upWalk
    split
    · have := ih p.date
      simp only [List.length_cons]
      omega
    · simp

theorem upWalk_eq_takeWhile (next : Int) (l : List Performance) :
    upWalk next l = ((dateGaps next l).takeWhile (fun g => g < REST_PERIOD)).length := by
  induction l generalizing next with
  | nil => rfl
  | cons p t ih =>
    unfold upWalk dateGaps
    by_cases h : next - p.date < REST_PERIOD <;>
      simp [List.takeWhile, h, ih, Nat.add_comm]

theorem count_results_cons (p : Performance) (t : List Performance) (r : Int) :
    count_results (p :: t) r =
      (if p.result = some r then 1 else 0) + count_results t r := by
  by_cases h : p.result = some r <;>
    simp [count_results, List.filter_cons, h, Nat.add_comm]

theorem condFilter_ok (tc : String) :
    ∀ l : List Performance, (∀ p ∈ l, p.track_condition ≠ none) →
      condFilter tc l = Except.ok (l.filter
        (fun p => ((p.track_condition.getD "").toUpper.startsWith tc.toUpper)))
  | [], _ => rfl
  | p :: t, h => by
    rcases hp : p.track_condition with _ | c
    · exact absurd hp (h p (List.mem_cons_self p t))
    · have ih := condFilter_ok tc t (fun q hq => h q (List.mem_cons_of_mem p hq))
      unfold condFilter
      rw [hp, ih]
      simp [List.filter_cons, hp]

/-! Claim theorems. -/

/-- C1 (code bug): for a career consisting of one performance 100 days
before the race date, the runner's `up` is 1 and the performance's own
forward run-count is 1, yet the code's `on_up` loop
(`range(len(career) - 1, 0, -1)`) never considers career index 0 (the
most recent performance) and returns the empty list, while the walk
over every career performance described by the spec collects it. -/
theorem claimC1_on_up_skips_most_recent :
    up 100 exC1 = 1 ∧ on_up 100 exC1 = [] ∧ onUpSpecWalk 100 exC1 = exC1 := by
  decide

/-- C2 counterexample: a collection of three starts with no winning
record (every record has a non-null starting price but none has result
1) has `roi` null, not `-1`: the `len(winning_starting_prices) > 0`
guard makes the method return `None`. -/
theorem claimC2_roi_counterexample :
    starts exC2 = 3 ∧ wins exC2 = 0 ∧ winning_starting_prices exC2 = [] ∧
    roi exC2 = none := by
  decide

/-- C2 amended: `roi` is null exactly when there is no winning record
with a non-null starting price; otherwise it equals the sum of those
starting prices minus `starts`, divided by `starts`. -/
theorem claimC2_roi_amended (l : List Performance) :
    (roi l = none ↔ winning_starting_prices l = []) ∧
    (winning_starting_prices l ≠ [] →
      roi l = some (((winning_starting_prices l).sum - (starts l : ℚ)) /
        (starts l : ℚ))) := by
  by_cases hw : winning_starting_prices l = []
  · refine ⟨?_, fun hne => absurd hw hne⟩
    simp [roi, hw]
  · have hlen : 0 < (winning_starting_prices l).length := List.length_pos.mpr hw
    have hl : l ≠ [] := by
      intro h0
      rw [h0] at hw
      exact hw rfl
    have hs : 0 < starts l := by
      simpa [starts] using List.length_pos.mpr hl
    refine ⟨?_, fun _ => ?_⟩ <;>
      simp [roi, calculate_percentage, hlen, hs, hw]

/-- Witness for the amended C2 at a concrete collection with one
winning priced record. -/
theorem claimC2_roi_amended_witness :
    roi exC2w = some (((winning_starting_prices exC2w).sum - (starts exC2w : ℚ)) /
      (starts exC2w : ℚ)) :=
  (claimC2_roi_amended exC2w).2 (by decide)

/-- C3: `win_pct` is null iff `starts` is zero, and otherwise equals
wins divided by starts exactly. -/
theorem claimC3_win_pct (l : List Performance) :
    (win_pct l = none ↔ starts l = 0) ∧
    (starts l ≠ 0 → win_pct l = some ((wins l : ℚ) / (starts l : ℚ))) := by
  by_cases h : starts l = 0
  · refine ⟨?_, fun hne => absurd h hne⟩
    simp [win_pct, calculate_percentage, h]
  · have hpos : 0 < starts l := Nat.pos_of_ne_zero h
    refine ⟨?_, fun _ => ?_⟩ <;>
      simp [win_pct, calculate_percentage, hpos, h]

/-- Witness for C3 at a concrete two-start, one-win collection. -/
theorem claimC3_win_pct_witness :
    win_pct exC3 = some ((wins exC3 : ℚ) / (starts exC3 : ℚ)) :=
  (claimC3_win_pct exC3).2 (by decide)

/-- C4: constructing a `PerformanceList` yields a permutation of the
input records, sorted descending by date, stably (for every date, the
records carrying that date keep their input order), and on the input
dated [2020-01-01, 2021-01-01, 2020-06-01] the resulting order is
[2021-01-01, 2020-06-01, 2020-01-01]. -/
theorem claimC4_construction_sort :
    (∀ l : List Performance, List.Perm (mkPerformanceList l) l) ∧
    (∀ l : List Performance, DateSortedDesc (mkPerformanceList l)) ∧
    (∀ (l : List Performance) (d : Int),
      (mkPerformanceList l).filter (fun q => q.date = d) =
        l.filter (fun q => q.date = d)) ∧
    mkPerformanceList exC4 =
      [datedPerf (daysFromCivil 2021 1 1) (some 2),
       datedPerf (daysFromCivil 2020 6 1) (some 3),
       datedPerf (daysFromCivil 2020 1 1) (some 1)] :=
  ⟨sortByDateDesc_perm, sortByDateDesc_pairwise, filter_sortByDateDesc, by decide⟩

/-- C5: `up` equals 1 plus the number of leading backward gaps under
the 90-day rest threshold (the spec's streak description), and on the
career run on 2024-03-01, 2024-01-20 and 2024-01-01 with a race on
2024-03-15 it equals 4. -/
theorem claimC5_up_streak :
    (∀ (r : Int) (c : List Performance), up r c = upSpec r c ∧ 1 ≤ up r c) ∧
    up exC5race exC5career = 4 := by
  refine ⟨fun r c => ⟨?_, ?_⟩, by decide⟩
  · simp [up, upSpec, upWalk_eq_takeWhile]
  · simp [up]

/-- C6 counterexample: in a two-record collection where exactly one
record has momentum 10 and starting price 10, the average momentum and
average starting price are 5 (sum of the non-null values divided by
the total start count), not 10 (the mean of the non-null values). -/
theorem claimC6_average_counterexample :
    get_momentums exC6 = [10] ∧ nonnull_starting_prices exC6 = [10] ∧
    ((get_momentums exC6).sum / ((get_momentums exC6).length : ℚ)) = 10 ∧
    average_momentum exC6 = some 5 ∧ average_starting_price exC6 = some 5 := by
  have hm : get_momentums exC6 = [10] := by decide
  have hp : nonnull_starting_prices exC6 = [10] := by decide
  refine ⟨hm, hp, ?_, ?_, ?_⟩
  · rw [hm]
    norm_num
  · simp only [average_momentum, hm, calculate_percentage]
    norm_num [starts, exC6]
  · simp only [average_starting_price, hp, calculate_percentage]
    norm_num [starts, exC6]

/-- C6 amended: `average_starting_price` and `average_momentum` sum
the non-null values but divide by `starts` (the total record count);
each of the four aggregates is null exactly when no qualifying record
exists. -/
theorem claimC6_averages_amended (l : List Performance) :
    (average_momentum l = none ↔ get_momentums l = []) ∧
    (get_momentums l ≠ [] →
      average_momentum l = some ((get_momentums l).sum / (starts l : ℚ))) ∧
    (average_starting_price l = none ↔ nonnull_starting_prices l = []) ∧
    (nonnull_starting_prices l ≠ [] →
      average_starting_price l =
        some ((nonnull_starting_prices l).sum / (starts l : ℚ))) ∧
    (maximum_momentum l = none ↔ get_momentums l = []) ∧
    (minimum_momentum l = none ↔ get_momentums l = []) := by
  have hlm : get_momentums l ≠ [] → 0 < starts l := by
    intro hm
    have hl : l ≠ [] := by
      intro h0
      rw [h0] at hm
      exact hm rfl
    simpa [starts] using List.length_pos.mpr hl
  have hlp : nonnull_starting_prices l ≠ [] → 0 < starts l := by
    intro hm
    have hl : l ≠ [] := by
      intro h0
      rw [h0] at hm
      exact hm rfl
    simpa [starts] using List.length_pos.mpr hl
  refine ⟨?_, fun hm => ?_, ?_, fun hp => ?_, ?_, ?_⟩
  · by_cases hm : get_momentums l = []
    · simp [average_momentum, hm]
    · simp [average_momentum, calculate_percentage, List.length_pos.mpr hm, hlm hm, hm]
  · simp [average_momentum, calculate_percentage, List.length_pos.mpr hm, hlm hm]
  · by_cases hp : nonnull_starting_prices l = []
    · simp [average_starting_price, hp]
    · simp [average_starting_price, calculate_percentage, List.length_pos.mpr hp,
        hlp hp, hp]
  · simp [average_starting_price, calculate_percentage, List.length_pos.mpr hp, hlp hp]
  · rcases hm : get_momentums l with _ | ⟨a, t⟩ <;> simp [maximum_momentum, hm]
  · rcases hm : get_momentums l with _ | ⟨a, t⟩ <;> simp [minimum_momentum, hm]

/-- Witness for the amended C6 at the two-record collection with one
non-null momentum. -/
theorem claimC6_averages_amended_witness :
    average_momentum exC6 = some ((get_momentums exC6).sum / (starts exC6 : ℚ)) :=
  (claimC6_averages_amended exC6).2.1 (by decide)

/-- C7 counterexample: a career containing a performance with a null
`track_condition` makes the track-condition accessor raise (modelled
as `Except.error`, for Python's `AttributeError` on
`None.upper()`) rather than return a collection. -/
theorem claimC7_condition_counterexample :
    get_performances_by_track_condition exC7 "firm" =
      Except.error "AttributeError" ∧
    (get_performances_by_track_condition exC7 "firm").toOption = none :=
  ⟨rfl, rfl⟩

/-- C7 amended: the track-condition accessors return a collection
without error exactly when every career record has a non-null
`track_condition`; under that hypothesis both the horse and jockey
variants return the case-insensitive prefix filter of the career. -/
theorem claimC7_condition_amended (career : List Performance) (tc : String)
    (h : ∀ p ∈ career, p.track_condition ≠ none) :
    get_performances_by_track_condition career tc =
      Except.ok (mkPerformanceList (career.filter
        (fun p => ((p.track_condition.getD "").toUpper.startsWith tc.toUpper)))) ∧
    get_jockey_performances_by_track_condition career tc =
      Except.ok (mkPerformanceList (career.filter
        (fun p => ((p.track_condition.getD "").toUpper.startsWith tc.toUpper)))) := by
  have hc := condFilter_ok tc career h
  constructor
  · show (condFilter tc career).map mkPerformanceList = _
    rw [hc]
    rfl
  · show (condFilter tc career).map mkPerformanceList = _
    rw [hc]
    rfl

/-- Witness for the amended C7 at a concrete career whose conditions
are all non-null. -/
theorem claimC7_condition_amended_witness :
    get_performances_by_track_condition exC7ok "good" =
      Except.ok (mkPerformanceList (exC7ok.filter
        (fun p => ((p.track_condition.getD "").toUpper.startsWith "good".toUpper)))) ∧
    get_jockey_performances_by_track_condition exC7ok "good" =
      Except.ok (mkPerformanceList (exC7ok.filter
        (fun p => ((p.track_condition.getD "").toUpper.startsWith "good".toUpper)))) :=
  claimC7_condition_amended exC7ok "good" (by decide)

/-- C8: with an unresolvable jockey (`None`), `jockey_career` is the
empty collection, every jockey-prefixed collection derived from it is
empty (the track-condition filter returns `ok []`, raising nothing),
and the derived statistics are null rather than errors. -/
theorem claimC8_jockey_none (meetDate raceDist : Int) (raceTrack tc : String) :
    jockey_career none meetDate = [] ∧
    at_distance_filter raceDist (jockey_career none meetDate) = [] ∧
    on_track_filter raceTrack (jockey_career none meetDate) = [] ∧
    at_distance_on_track_filter (jockey_career none meetDate)
      (jockey_career none meetDate) = [] ∧
    get_jockey_performances_by_track_condition (jockey_career none meetDate) tc =
      Except.ok [] ∧
    win_pct (jockey_career none meetDate) = none ∧
    roi (jockey_career none meetDate) = none ∧
    average_momentum (jockey_career none meetDate) = none ∧
    maximum_momentum (jockey_career none meetDate) = none ∧
    total_prize_money (jockey_career none meetDate) = none :=
  ⟨rfl, rfl, rfl, rfl, rfl, rfl, rfl, rfl, rfl, rfl⟩

/-- C9: for every collection, `starts` equals the number of records,
and the wins, seconds, thirds and fourths counts sum to at most
`starts`. -/
theorem claimC9_counts (l : List Performance) :
    starts l = l.length ∧ wins l + seconds l + thirds l + fourths l ≤ starts l := by
  refine ⟨rfl, ?_⟩
  show count_results l 1 + count_results l 2 + count_results l 3 +
    count_results l 4 ≤ l.length
  induction l with
  | nil => simp [count_results]
  | cons p t ih =>
    have h1 : (if p.result = some 1 then 1 else 0) + (if p.result = some 2 then 1 else 0) +
        ((if p.result = some 3 then 1 else 0) + (if p.result = some 4 then 1 else 0)) ≤ 1 := by
      rcases hp : p.result with _ | r
      · simp [hp]
      · simp only [hp, Option.some.injEq]
        split_ifs <;> omega
    simp only [count_results_cons, List.length_cons]
    omega

/-- C10: for a date-sorted career, `since_rest` consists of exactly
the first `up - 1` career entries, so its `starts` equals `up - 1`:
the two backward rest-threshold walks agree on where the streak
ends. -/
theorem claimC10_since_rest_prefix (r : Int) (c : List Performance)
    (h : DateSortedDesc c) :
    since_rest r c = c.take (up r c - 1) ∧
    starts (since_rest r c) = up r c - 1 := by
  have hw : up r c - 1 = upWalk r c := by simp [up]
  have hsorted : (c.take (upWalk r c)).Pairwise (fun a b => b.date ≤ a.date) :=
    List.Pairwise.sublist (List.take_sublist _ c) h
  have hs : since_rest r c = c.take (upWalk r c) := by
    unfold since_rest mkPerformanceList
    rw [sinceRestWalk_eq_take, sortByDateDesc_of_pairwise hsorted]
  refine ⟨by rw [hs, hw], ?_⟩
  rw [hs, hw]
  show (c.take (upWalk r c)).length = upWalk r c
  rw [List.length_take]
  exact Nat.min_eq_left (upWalk_le_length r c)

/-- Witness for C10 at a concrete sorted career with a rest gap of
more than 90 days in the middle. -/
theorem claimC10_since_rest_prefix_witness :
    since_rest 310 exC10 = exC10.take (up 310 exC10 - 1) ∧
    starts (since_rest 310 exC10) = up 310 exC10 - 1 :=
  claimC10_since_rest_prefix 310 exC10 (by decide)

end Pyracing
